import Mathlib

/-!
Verification development for the fuel-trims heatmap tool
(`src/fuel_trims.py`).  The pandas pipeline is embedded shallowly:

* a data-frame row is a `Row` of four optional rationals (a pandas `NaN`
  or missing value is `none`);
* line 57 `df.dropna(subset=REQUIRED_COLUMNS)` and line 58
  `df[(df['MAP_mbar'] > 0) & (df['RPM'] > 0)]` become `filterRecords`;
* lines 60-61 `(df['RPM'] // rpm_bin_size) * rpm_bin_size` become `qbin`
  and `rowBin` (Python `//` on numbers is floor division);
* lines 133-134 `df.pivot_table(..., aggfunc='mean' / 'count')` become
  `pivotMean` / `pivotCount`, sparse grids as `Option`-valued functions
  of the bin key (a key whose group is empty holds `NaN`, i.e. `none`);
* line 75 `(count_df >= min_samples) & (pivot_df >= min_trim) &
  (pivot_df <= max_trim)` becomes `create_trim_heatmap_mask`; pandas
  comparisons against `NaN` yield `False`, embedded by the `opt*`
  comparison helpers;
* lines 144-150 (side-by-side mode) become `sideBySideCount`,
  `mask_stft`, `mask_ltft` and `combined_mask`.
-/

/-- One row of the renamed log table: the four canonical columns
`MAP_mbar`, `RPM`, `STFT`, `LTFT`.  A pandas null (`NaN`) is `none`. -/
structure Row where
  MAP_mbar : Option ℚ
  RPM : Option ℚ
  STFT : Option ℚ
  LTFT : Option ℚ
deriving DecidableEq, Repr

/-- The signal the heat map is drawn for: column selectors `'STFT'`,
`'LTFT'` and `'TotalTrim'` of `trim_modes` (lines 64-69). -/
inductive Signal where
  | STFT
  | LTFT
  | TotalTrim
deriving DecidableEq, Repr

/-- Line 62 `df['TotalTrim'] = df['STFT'] + df['LTFT']` and column
selection: the value of the selected signal in one row.  Adding a pandas
`NaN` yields `NaN`, hence the `Option` matches. -/
def signalVal (s : Signal) (r : Row) : Option ℚ :=
  match s with
  | Signal.STFT => r.STFT
  | Signal.LTFT => r.LTFT
  | Signal.TotalTrim =>
      match r.STFT, r.LTFT with
      | some a, some b => some (a + b)
      | _, _ => none

/-- Line 57 `df.dropna(subset=REQUIRED_COLUMNS)`: keep a row iff all four
required fields are non-null. -/
def hasAll (r : Row) : Bool :=
  r.MAP_mbar.isSome && r.RPM.isSome && r.STFT.isSome && r.LTFT.isSome

/-- A pandas `series > threshold` comparison: `NaN` compares `False`. -/
def optValGt (x : Option ℚ) (b : ℚ) : Bool :=
  match x with
  | some v => decide (b < v)
  | none => false

/-- Line 58 `(df['MAP_mbar'] > 0) & (df['RPM'] > 0)`. -/
def posOk (r : Row) : Bool :=
  optValGt r.MAP_mbar 0 && optValGt r.RPM 0

/-- The Record Filter, lines 57-58: drop rows with a null required field,
then rows with non-positive `MAP_mbar` or `RPM`. -/
def filterRecords (rows : List Row) : List Row :=
  (rows.filter hasAll).filter posOk

/-- Lines 60-61: `(v // size) * size`, Python floor division. -/
def qbin (v size : ℚ) : ℚ :=
  (⌊v / size⌋ : ℚ) * size

/-- The bin key `(RPM_bin, MAP_bin)` of one row (lines 60-61); `none`
when either coordinate is null (`NaN // size` is `NaN`). -/
def rowBin (r : Row) (rpmSize mapSize : ℚ) : Option (ℚ × ℚ) :=
  match r.RPM, r.MAP_mbar with
  | some rv, some mv => some (qbin rv rpmSize, qbin mv mapSize)
  | _, _ => none

/-- The group of rows sharing bin key `k`: the rows `pivot_table`
aggregates into the cell at `(RPM_bin, MAP_bin) = k`. -/
def groupAt (rows : List Row) (rpmSize mapSize : ℚ) (k : ℚ × ℚ) : List Row :=
  rows.filter (fun r => decide (rowBin r rpmSize mapSize = some k))

/-- The non-null values of the selected signal inside one group; pandas
`mean` and `count` aggregate only these. -/
def groupVals (s : Signal) (g : List Row) : List ℚ :=
  g.filterMap (signalVal s)

/-- Line 133 `df.pivot_table(index='MAP_bin', columns='RPM_bin',
values=value_col, aggfunc='mean')`, read at bin key `k`: `NaN` (`none`)
when the cell has no value, else the arithmetic mean. -/
def pivotMean (rows : List Row) (rpmSize mapSize : ℚ) (s : Signal) (k : ℚ × ℚ) : Option ℚ :=
  let vals := groupVals s (groupAt rows rpmSize mapSize k)
  if vals = [] then none else some (vals.sum / (vals.length : ℚ))

/-- Line 134, the same pivot with `aggfunc='count'`. -/
def pivotCount (rows : List Row) (rpmSize mapSize : ℚ) (s : Signal) (k : ℚ × ℚ) : Option ℕ :=
  let vals := groupVals s (groupAt rows rpmSize mapSize k)
  if vals = [] then none else some vals.length

/-- `count_df >= min_samples` with pandas `NaN` semantics. -/
def optCountGe (c : Option ℕ) (m : ℕ) : Bool :=
  match c with
  | some n => decide (m ≤ n)
  | none => false

/-- `pivot_df >= min_trim` with pandas `NaN` semantics. -/
def optValGe (x : Option ℚ) (b : ℚ) : Bool :=
  match x with
  | some v => decide (b ≤ v)
  | none => false

/-- `pivot_df <= max_trim` with pandas `NaN` semantics. -/
def optValLe (x : Option ℚ) (b : ℚ) : Bool :=
  match x with
  | some v => decide (v ≤ b)
  | none => false

/-- Line 75 of `create_trim_heatmap`: `mask = (count_df >= min_samples) &
(pivot_df >= min_trim) & (pivot_df <= max_trim)`, read at bin key `k`. -/
def create_trim_heatmap_mask (pivot : ℚ × ℚ → Option ℚ) (count : ℚ × ℚ → Option ℕ)
    (minSamples : ℕ) (minTrim maxTrim : ℚ) (k : ℚ × ℚ) : Bool :=
  optCountGe (count k) minSamples && optValGe (pivot k) minTrim && optValLe (pivot k) maxTrim

/-- Line 146: in side-by-side mode the single count grid is the `'STFT'`
count pivot. -/
def sideBySideCount (rows : List Row) (rpmSize mapSize : ℚ) : ℚ × ℚ → Option ℕ :=
  pivotCount rows rpmSize mapSize Signal.STFT

/-- Line 148: the STFT mask of side-by-side mode (value grid `'STFT'`,
count grid `sideBySideCount`). -/
def mask_stft (rows : List Row) (rpmSize mapSize : ℚ) (minSamples : ℕ)
    (minTrim maxTrim : ℚ) : ℚ × ℚ → Bool :=
  create_trim_heatmap_mask (pivotMean rows rpmSize mapSize Signal.STFT)
    (sideBySideCount rows rpmSize mapSize) minSamples minTrim maxTrim

/-- Line 149: the LTFT mask of side-by-side mode (value grid `'LTFT'`,
count grid again `sideBySideCount`). -/
def mask_ltft (rows : List Row) (rpmSize mapSize : ℚ) (minSamples : ℕ)
    (minTrim maxTrim : ℚ) : ℚ × ℚ → Bool :=
  create_trim_heatmap_mask (pivotMean rows rpmSize mapSize Signal.LTFT)
    (sideBySideCount rows rpmSize mapSize) minSamples minTrim maxTrim

/-- Line 150 `combined_mask = mask_stft | mask_ltft`: pointwise boolean
or of the two data frames (they share index and columns). -/
def combined_mask (rows : List Row) (rpmSize mapSize : ℚ) (minSamples : ℕ)
    (minTrim maxTrim : ℚ) (k : ℚ × ℚ) : Bool :=
  mask_stft rows rpmSize mapSize minSamples minTrim maxTrim k ||
    mask_ltft rows rpmSize mapSize minSamples minTrim maxTrim k

/-- Line 21 `REQUIRED_COLUMNS = ['MAP_mbar', 'RPM', 'STFT', 'LTFT']`. -/
def REQUIRED_COLUMNS : List String :=
  ["MAP_mbar", "RPM", "STFT", "LTFT"]

/-- The uploaded mapping table `df_map`: its column header list and the
contents of its `original` and `new` columns (row-aligned). -/
structure MapFile where
  columns : List String
  originals : List String
  news : List String
deriving DecidableEq, Repr

/-- The ways the schema-validation block (lines 46-54) aborts via
`st.error` + `st.stop`. -/
inductive SchemaError where
  | missingMappingColumns
  | missingRequiredField (missing : List String)
deriving DecidableEq, Repr

/-- One Python `dict` assignment `d[k] = v`: overwrite the value of an
existing key in place, otherwise append the new binding. -/
def dictInsert : List (String × String) → String × String → List (String × String)
  | [], kv => [kv]
  | p :: d, kv => if p.1 = kv.1 then kv :: d else p :: dictInsert d kv

/-- Line 50 `dict(zip(df_map['original'], df_map['new']))`: insert the
zipped pairs left to right, a later pair with the same key overwriting
the earlier value. -/
def dictZip (ks vs : List String) : List (String × String) :=
  (List.zip ks vs).foldl dictInsert []

/-- Python `d.get(k)`: look a key up in the dict. -/
def dictGet (d : List (String × String)) (k : String) : Option String :=
  (d.find? (fun p => p.1 = k)).map Prod.snd

/-- Line 50: the `column_mapping` dict of a mapping file. -/
def column_mapping (m : MapFile) : List (String × String) :=
  dictZip m.originals m.news

/-- Line 51 `[col for col in REQUIRED_COLUMNS if col not in
column_mapping.values()]`. -/
def missingFields (m : MapFile) : List String :=
  REQUIRED_COLUMNS.filter (fun c => !((column_mapping m).map Prod.snd).contains c)

/-- Lines 46-54, the Schema Resolver: reject a mapping table without an
`original` or `new` column, then reject a mapping whose targets do not
cover all of `REQUIRED_COLUMNS`; otherwise return the mapping dict. -/
def resolveSchema (m : MapFile) : Except SchemaError (List (String × String)) :=
  if ("original") ∈ m.columns ∧ ("new") ∈ m.columns then
    if missingFields m = [] then Except.ok (column_mapping m)
    else Except.error (SchemaError.missingRequiredField (missingFields m))
  else Except.error SchemaError.missingMappingColumns

/-- The uploaded log table `df_log`: arbitrary column headers and rows of
optional numeric values aligned with the headers. -/
structure LogTable where
  headers : List String
  rows : List (List (Option ℚ))
deriving DecidableEq, Repr

/-- Line 56 `df_log.rename(columns=column_mapping)` on the header list:
every header is relabelled independently to `column_mapping.get(h, h)`;
no column is dropped, so two sources mapped to one target both keep the
target's name. -/
def renameColumns (headers : List String) (d : List (String × String)) : List String :=
  headers.map (fun h => (dictGet d h).getD h)

/-- Line 56 on the whole table: relabel the headers, keep the rows. -/
def renameTable (t : LogTable) (d : List (String × String)) : LogTable :=
  { headers := renameColumns t.headers d, rows := t.rows }

/-- Read the field of one table row stored under header `name` (the
first column with that label, as `df[name]` when labels are unique). -/
def fieldAt (headers : List String) (vals : List (Option ℚ)) (name : String) : Option ℚ :=
  match headers.findIdx? (fun h => h = name) with
  | some i => vals.getD i none
  | none => none

/-- Project the renamed table onto the four canonical columns. -/
def tableRows (t : LogTable) : List Row :=
  t.rows.map (fun vals =>
    { MAP_mbar := fieldAt t.headers vals ("MAP_mbar")
      RPM := fieldAt t.headers vals ("RPM")
      STFT := fieldAt t.headers vals ("STFT")
      LTFT := fieldAt t.headers vals ("LTFT") })

/-- Everything the core computes for one signal in one invocation: the
two pivot grids, the validity mask, and the three time-series columns
of lines 113-118 (the filtered rows projected in order). -/
structure CoreOutput where
  meanGrid : ℚ × ℚ → Option ℚ
  countGrid : ℚ × ℚ → Option ℕ
  mask : ℚ × ℚ → Bool
  stftSeries : List (Option ℚ)
  ltftSeries : List (Option ℚ)
  totalSeries : List (Option ℚ)

/-- The core pipeline on already-resolved records. -/
def coreOutput (recs : List Row) (rpmSize mapSize : ℚ) (s : Signal)
    (minSamples : ℕ) (minTrim maxTrim : ℚ) : CoreOutput :=
  { meanGrid := pivotMean recs rpmSize mapSize s
    countGrid := pivotCount recs rpmSize mapSize s
    mask := create_trim_heatmap_mask (pivotMean recs rpmSize mapSize s)
      (pivotCount recs rpmSize mapSize s) minSamples minTrim maxTrim
    stftSeries := recs.map (fun r => r.STFT)
    ltftSeries := recs.map (fun r => r.LTFT)
    totalSeries := recs.map (fun r => signalVal Signal.TotalTrim r) }

/-- The whole invocation, lines 43-162 for one signal: resolve the
schema; on failure abort with the error and produce nothing, otherwise
rename, filter, bin, aggregate, mask and project. -/
def runHeatmap (m : MapFile) (t : LogTable) (rpmSize mapSize : ℚ) (s : Signal)
    (minSamples : ℕ) (minTrim maxTrim : ℚ) : Except SchemaError CoreOutput :=
  match resolveSchema m with
  | Except.error e => Except.error e
  | Except.ok d =>
      Except.ok (coreOutput (filterRecords (tableRows (renameTable t d)))
        rpmSize mapSize s minSamples minTrim maxTrim)

/-- A sample record that survives the filter: `MAP_mbar = 500`,
`RPM = 1000`, `STFT = 2`, `LTFT = 1` (the scenario of the spec). -/
def goodRow : Row :=
  { MAP_mbar := some 500, RPM := some 1000, STFT := some 2, LTFT := some 1 }

/-- A sample record the filter drops: its `RPM` field is null. -/
def badRow : Row :=
  { MAP_mbar := some 500, RPM := none, STFT := some 2, LTFT := some 1 }

/-- Every record that survives `filterRecords` passed the `dropna` stage,
so all four of its required fields are non-null. -/
theorem hasAll_of_mem_filterRecords (rows : List Row) (r : Row)
    (h : r ∈ filterRecords rows) : hasAll r = true :=
  (List.mem_filter.mp ((List.mem_filter.mp h).1)).2

/-- Group members come from the filtered record list, hence also have
all required fields non-null. -/
theorem hasAll_of_mem_group (rows : List Row) (rpmSize mapSize : ℚ) (k : ℚ × ℚ) (r : Row)
    (h : r ∈ groupAt (filterRecords rows) rpmSize mapSize k) : hasAll r = true :=
  hasAll_of_mem_filterRecords rows r (List.mem_filter.mp h).1

/-- On a record with all required fields non-null, every signal selector
produces a value (`TotalTrim` is the sum of two non-null fields). -/
theorem signalVal_isSome_of_hasAll (s : Signal) (r : Row) (h : hasAll r = true) :
    (signalVal s r).isSome = true := by
  have h4 : ((r.MAP_mbar.isSome = true ∧ r.RPM.isSome = true) ∧
      r.STFT.isSome = true) ∧ r.LTFT.isSome = true := by
    simpa [hasAll] using h
  obtain ⟨⟨⟨-, -⟩, h3⟩, h4'⟩ := h4
  rcases Option.isSome_iff_exists.mp h3 with ⟨a, ha⟩
  rcases Option.isSome_iff_exists.mp h4' with ⟨b, hb⟩
  cases s <;> simp [signalVal, ha, hb]

/-- Aggregating a group whose members all have non-null fields loses no
record: the value list is as long as the group. -/
theorem length_filterMap_signal (s : Signal) (g : List Row)
    (h : ∀ r ∈ g, hasAll r = true) :
    (g.filterMap (signalVal s)).length = g.length := by
  induction g with
  | nil => rfl
  | cons r g ih =>
      have hr := h r (by simp)
      have hg : ∀ x ∈ g, hasAll x = true := fun x hx => h x (by simp [hx])
      rcases Option.isSome_iff_exists.mp (signalVal_isSome_of_hasAll s r hr) with ⟨a, ha⟩
      simp [List.filterMap_cons, ha, ih hg]

/-- The aggregated value list pairs up with the group row by row. -/
theorem forall2_filterMap_signal (s : Signal) (g : List Row)
    (h : ∀ r ∈ g, hasAll r = true) :
    List.Forall₂ (fun r v => signalVal s r = some v) g (g.filterMap (signalVal s)) := by
  induction g with
  | nil => simp
  | cons r g ih =>
      have hr := h r (by simp)
      have hg : ∀ x ∈ g, hasAll x = true := fun x hx => h x (by simp [hx])
      rcases Option.isSome_iff_exists.mp (signalVal_isSome_of_hasAll s r hr) with ⟨a, ha⟩
      rw [List.filterMap_cons, ha]
      exact List.Forall₂.cons ha (ih hg)

/-- C1: the validity mask of `create_trim_heatmap` is true at a bin key
iff the key is present in the value grid, its count is at least
`minSamples`, and its mean lies in the inclusive interval
`[minTrim, maxTrim]`; a key absent from the value grid is false (pandas
comparisons against `NaN` are `False`, never an error). -/
theorem create_trim_heatmap_mask_iff (pivot : ℚ × ℚ → Option ℚ) (count : ℚ × ℚ → Option ℕ)
    (minSamples : ℕ) (minTrim maxTrim : ℚ) (k : ℚ × ℚ) :
    (create_trim_heatmap_mask pivot count minSamples minTrim maxTrim k = true ↔
      ∃ m n, pivot k = some m ∧ count k = some n ∧
        minSamples ≤ n ∧ minTrim ≤ m ∧ m ≤ maxTrim) ∧
    (pivot k = none →
      create_trim_heatmap_mask pivot count minSamples minTrim maxTrim k = false) := by
  constructor
  · cases hp : pivot k <;> cases hc : count k <;>
      simp [create_trim_heatmap_mask, optCountGe, optValGe, optValLe, hp, hc, and_assoc]
  · intro hp
    cases hc : count k <;>
      simp [create_trim_heatmap_mask, optCountGe, optValGe, optValLe, hp, hc]

/-- C2: binning is floor division times the bin size on both axes;
a value exactly on a bin boundary belongs to that bin
(`qbin size size = size`) and any value strictly below the boundary
falls in the bin below (`qbin (size - ε) size = 0` for `0 < ε ≤ size`). -/
theorem bin_floor_division_spec (v size ε : ℚ) (r : Row) (rv mv mapSize : ℚ)
    (hs : 0 < size) (hε : 0 < ε) (hεs : ε ≤ size)
    (hr : r.RPM = some rv) (hm : r.MAP_mbar = some mv) :
    qbin v size = (⌊v / size⌋ : ℚ) * size ∧
    rowBin r size mapSize = some (qbin rv size, qbin mv mapSize) ∧
    qbin size size = size ∧
    qbin (size - ε) size = 0 := by
  refine ⟨rfl, ?_, ?_, ?_⟩
  · simp [rowBin, hr, hm]
  · unfold qbin
    rw [div_self (ne_of_gt hs)]
    simp
  · unfold qbin
    have h0 : (0 : ℚ) ≤ (size - ε) / size := div_nonneg (by linarith) hs.le
    have h1 : (size - ε) / size < 1 := (div_lt_one hs).mpr (by linarith)
    rw [Int.floor_eq_zero_iff.mpr (Set.mem_Ico.mpr ⟨h0, h1⟩)]
    simp

/-- Witness for C2 at `v = 1000`, `size = 500`, `ε = 250`, `mapSize = 50`
on the sample record `goodRow`. -/
theorem bin_floor_division_spec_witness :
    (0 : ℚ) < 500 ∧ (0 : ℚ) < 250 ∧ (250 : ℚ) ≤ 500 ∧
    goodRow.RPM = some 1000 ∧ goodRow.MAP_mbar = some 500 ∧
    (qbin 1000 500 = (⌊(1000 : ℚ) / 500⌋ : ℚ) * 500 ∧
      rowBin goodRow 500 50 = some (qbin 1000 500, qbin 500 50) ∧
      qbin 500 500 = 500 ∧
      qbin (500 - 250) 500 = 0) :=
  ⟨by norm_num, by norm_num, by norm_num, rfl, rfl,
    bin_floor_division_spec 1000 500 250 goodRow 1000 500 50
      (by norm_num) (by norm_num) (by norm_num) rfl rfl⟩

/-- C5: the combined mask of side-by-side mode (line 150) is true at a
bin key iff the STFT mask or the LTFT mask is true there. -/
theorem combined_mask_or_iff (rows : List Row) (rpmSize mapSize : ℚ) (minSamples : ℕ)
    (minTrim maxTrim : ℚ) (k : ℚ × ℚ) :
    combined_mask rows rpmSize mapSize minSamples minTrim maxTrim k = true ↔
      (mask_stft rows rpmSize mapSize minSamples minTrim maxTrim k = true ∨
        mask_ltft rows rpmSize mapSize minSamples minTrim maxTrim k = true) := by
  simp [combined_mask]

/-- C8: a produced grid never stores a zero-count cell: a present count
is at least `1`, the mean grid and the count grid are present at exactly
the same keys, and a cell whose group contributes no value is genuinely
absent (`none`), not a zero entry. -/
theorem grid_no_zero_count (rows : List Row) (rpmSize mapSize : ℚ) (s : Signal) (k : ℚ × ℚ) :
    (∀ n, pivotCount rows rpmSize mapSize s k = some n → 1 ≤ n) ∧
    ((pivotMean rows rpmSize mapSize s k).isSome = true ↔
      (pivotCount rows rpmSize mapSize s k).isSome = true) ∧
    (groupVals s (groupAt rows rpmSize mapSize k) = [] →
      pivotCount rows rpmSize mapSize s k = none) := by
  cases hv : groupVals s (groupAt rows rpmSize mapSize k) with
  | nil => simp [pivotMean, pivotCount, hv]
  | cons a l =>
      refine ⟨?_, by simp [pivotMean, pivotCount, hv], by simp [hv]⟩
      intro n hn
      simp [pivotCount, hv] at hn
      omega

/-- C9: when the filtered record list is empty, aggregation does not
fail: both pivot grids are empty (`none` everywhere) and the validity
mask is false everywhere. -/
theorem empty_filter_safe (rows : List Row) (rpmSize mapSize : ℚ) (s : Signal)
    (minSamples : ℕ) (minTrim maxTrim : ℚ) (k : ℚ × ℚ)
    (h : filterRecords rows = []) :
    pivotMean (filterRecords rows) rpmSize mapSize s k = none ∧
    pivotCount (filterRecords rows) rpmSize mapSize s k = none ∧
    create_trim_heatmap_mask (pivotMean (filterRecords rows) rpmSize mapSize s)
      (pivotCount (filterRecords rows) rpmSize mapSize s) minSamples minTrim maxTrim k
      = false := by
  rw [h]
  simp [pivotMean, pivotCount, groupAt, groupVals, create_trim_heatmap_mask,
    optCountGe, optValGe, optValLe]

/-- Witness for C9: a one-row log whose `RPM` is null is filtered to the
empty record list, and the grids and mask built from it are empty. -/
theorem empty_filter_safe_witness :
    filterRecords [badRow] = [] ∧
    (pivotMean (filterRecords [badRow]) 500 50 Signal.STFT (0, 0) = none ∧
      pivotCount (filterRecords [badRow]) 500 50 Signal.STFT (0, 0) = none ∧
      create_trim_heatmap_mask (pivotMean (filterRecords [badRow]) 500 50 Signal.STFT)
        (pivotCount (filterRecords [badRow]) 500 50 Signal.STFT) 1 (-50) 50 (0, 0)
        = false) :=
  ⟨by simp [filterRecords, badRow, hasAll, List.filter],
    empty_filter_safe [badRow] 500 50 Signal.STFT 1 (-50) 50 (0, 0)
      (by simp [filterRecords, badRow, hasAll, List.filter])⟩

/-- C3: on filtered records, the produced cell's mean is the arithmetic
mean of the selected signal's values over the group's member records
(`vs` pairs with the group row by row, `TotalTrim` being the per-record
sum `STFT + LTFT`), and its count is the group size. -/
theorem pivot_mean_is_arithmetic_mean (rows : List Row) (rpmSize mapSize : ℚ)
    (s : Signal) (k : ℚ × ℚ)
    (hne : groupAt (filterRecords rows) rpmSize mapSize k ≠ []) :
    ∃ vs : List ℚ,
      List.Forall₂ (fun r v => signalVal s r = some v)
        (groupAt (filterRecords rows) rpmSize mapSize k) vs ∧
      pivotMean (filterRecords rows) rpmSize mapSize s k
        = some (vs.sum / (vs.length : ℚ)) ∧
      pivotCount (filterRecords rows) rpmSize mapSize s k
        = some (groupAt (filterRecords rows) rpmSize mapSize k).length := by
  have hall : ∀ r ∈ groupAt (filterRecords rows) rpmSize mapSize k, hasAll r = true :=
    fun r hr => hasAll_of_mem_group rows rpmSize mapSize k r hr
  have hlen := length_filterMap_signal s (groupAt (filterRecords rows) rpmSize mapSize k) hall
  have hvne : (groupAt (filterRecords rows) rpmSize mapSize k).filterMap (signalVal s) ≠ [] := by
    intro h0
    apply hne
    apply List.length_eq_zero.mp
    rw [← hlen, h0]
    rfl
  refine ⟨(groupAt (filterRecords rows) rpmSize mapSize k).filterMap (signalVal s),
    forall2_filterMap_signal s (groupAt (filterRecords rows) rpmSize mapSize k) hall, ?_, ?_⟩
  · simp only [pivotMean, groupVals]
    rw [if_neg hvne]
  · simp only [pivotCount, groupVals]
    rw [if_neg hvne, hlen]

/-- Witness for C3 on the one-record log `[goodRow]`, bin sizes 500/50,
signal `TotalTrim`, bin key `(1000, 500)`. -/
theorem pivot_mean_is_arithmetic_mean_witness :
    groupAt (filterRecords [goodRow]) 500 50 (1000, 500) ≠ [] ∧
    (∃ vs : List ℚ,
      List.Forall₂ (fun r v => signalVal Signal.TotalTrim r = some v)
        (groupAt (filterRecords [goodRow]) 500 50 (1000, 500)) vs ∧
      pivotMean (filterRecords [goodRow]) 500 50 Signal.TotalTrim (1000, 500)
        = some (vs.sum / (vs.length : ℚ)) ∧
      pivotCount (filterRecords [goodRow]) 500 50 Signal.TotalTrim (1000, 500)
        = some (groupAt (filterRecords [goodRow]) 500 50 (1000, 500)).length) :=
  ⟨by
    simp [filterRecords, goodRow, hasAll, posOk, optValGt, List.filter, groupAt,
      rowBin, qbin]
    norm_num,
    pivot_mean_is_arithmetic_mean [goodRow] 500 50 Signal.TotalTrim (1000, 500)
      (by
        simp [filterRecords, goodRow, hasAll, posOk, optValGt, List.filter, groupAt,
          rowBin, qbin]
        norm_num)⟩

/-- A row survives lines 57-58 iff all four required fields are non-null
and `MAP_mbar` and `RPM` are positive. -/
theorem keep_row_iff (r : Row) :
    (hasAll r && posOk r) = true ↔
      (∃ mv, r.MAP_mbar = some mv ∧ 0 < mv) ∧ (∃ rv, r.RPM = some rv ∧ 0 < rv) ∧
        r.STFT.isSome = true ∧ r.LTFT.isSome = true := by
  cases hM : r.MAP_mbar <;> cases hR : r.RPM <;>
    simp [hasAll, posOk, optValGt, hM, hR]
  tauto

/-- C4: the Record Filter returns the order-preserving subsequence of
valid rows: it equals a single `List.filter`, is a sublist of its input
(hence no longer than it), and keeps exactly the rows whose required
fields are all non-null with positive `MAP_mbar` and `RPM`; it is a
total function, so dropping is silent, never an error. -/
theorem filterRecords_spec (rows : List Row) :
    filterRecords rows = rows.filter (fun r => hasAll r && posOk r) ∧
    (filterRecords rows).Sublist rows ∧
    (filterRecords rows).length ≤ rows.length ∧
    ∀ r, r ∈ filterRecords rows ↔
      r ∈ rows ∧ ((∃ mv, r.MAP_mbar = some mv ∧ 0 < mv) ∧
        (∃ rv, r.RPM = some rv ∧ 0 < rv) ∧
        r.STFT.isSome = true ∧ r.LTFT.isSome = true) := by
  have h1 : filterRecords rows = rows.filter (fun r => hasAll r && posOk r) := by
    unfold filterRecords
    rw [List.filter_filter]
    exact List.filter_congr (fun a _ => Bool.and_comm _ _)
  have h2 : (filterRecords rows).Sublist rows := by
    rw [h1]
    exact List.filter_sublist rows
  refine ⟨h1, h2, h2.length_le, ?_⟩
  intro r
  rw [h1, List.mem_filter, keep_row_iff]

/-- C10: the single count grid of side-by-side mode is the STFT count
pivot (line 146), and on filtered records it coincides with the LTFT
count pivot, because every surviving record has both trim fields
non-null. -/
theorem side_by_side_count_eq (rows : List Row) (rpmSize mapSize : ℚ) (k : ℚ × ℚ) :
    sideBySideCount (filterRecords rows) rpmSize mapSize k
      = pivotCount (filterRecords rows) rpmSize mapSize Signal.STFT k ∧
    sideBySideCount (filterRecords rows) rpmSize mapSize k
      = pivotCount (filterRecords rows) rpmSize mapSize Signal.LTFT k := by
  refine ⟨rfl, ?_⟩
  have hall : ∀ r ∈ groupAt (filterRecords rows) rpmSize mapSize k, hasAll r = true :=
    fun r hr => hasAll_of_mem_group rows rpmSize mapSize k r hr
  have h1 := length_filterMap_signal Signal.STFT
    (groupAt (filterRecords rows) rpmSize mapSize k) hall
  have h2 := length_filterMap_signal Signal.LTFT
    (groupAt (filterRecords rows) rpmSize mapSize k) hall
  by_cases hg : groupAt (filterRecords rows) rpmSize mapSize k = []
  · simp [sideBySideCount, pivotCount, groupVals, hg]
  · have hv1 : (groupAt (filterRecords rows) rpmSize mapSize k).filterMap
        (signalVal Signal.STFT) ≠ [] := by
      intro h0
      apply hg
      apply List.length_eq_zero.mp
      rw [← h1, h0]
      rfl
    have hv2 : (groupAt (filterRecords rows) rpmSize mapSize k).filterMap
        (signalVal Signal.LTFT) ≠ [] := by
      intro h0
      apply hg
      apply List.length_eq_zero.mp
      rw [← h2, h0]
      rfl
    simp only [sideBySideCount, pivotCount, groupVals]
    rw [if_neg hv1, if_neg hv2, h1, h2]

/-- A canonical field is uncovered iff no mapping row targets it. -/
theorem not_contains_snd_iff (l : List (String × String)) (c : String) :
    (!(l.map Prod.snd).contains c) = true ↔ ∀ p ∈ l, p.2 ≠ c := by
  simp
  constructor
  · intro h a b hab hbc
    exact h a (hbc ▸ hab)
  · intro h x hx
    exact h x c hx rfl

/-- C6: the Schema Resolver fails with `missingMappingColumns` exactly
when the mapping table lacks an `original` or `new` column, fails with
`missingRequiredField` carrying exactly the required fields not covered
by the mapping's target values, and on any such failure the whole
invocation aborts with that error, producing no grids, mask or
time-series output. -/
theorem resolveSchema_spec (m : MapFile) (t : LogTable) (rpmSize mapSize : ℚ)
    (s : Signal) (minSamples : ℕ) (minTrim maxTrim : ℚ) :
    (resolveSchema m = Except.error SchemaError.missingMappingColumns ↔
      ¬(("original") ∈ m.columns ∧ ("new") ∈ m.columns)) ∧
    (∀ miss, resolveSchema m = Except.error (SchemaError.missingRequiredField miss) ↔
      (("original") ∈ m.columns ∧ ("new") ∈ m.columns) ∧
        miss = missingFields m ∧ missingFields m ≠ []) ∧
    (∀ c, c ∈ missingFields m ↔
      c ∈ REQUIRED_COLUMNS ∧ ∀ p ∈ column_mapping m, p.2 ≠ c) ∧
    (∀ e, resolveSchema m = Except.error e →
      runHeatmap m t rpmSize mapSize s minSamples minTrim maxTrim = Except.error e) := by
  refine ⟨?_, ?_, ?_, ?_⟩
  · unfold resolveSchema
    by_cases hc : ("original") ∈ m.columns ∧ ("new") ∈ m.columns
    · rw [if_pos hc]
      by_cases hm : missingFields m = [] <;> simp [hm, hc]
    · rw [if_neg hc]
      simp [hc]
  · intro miss
    unfold resolveSchema
    by_cases hc : ("original") ∈ m.columns ∧ ("new") ∈ m.columns
    · rw [if_pos hc]
      by_cases hm : missingFields m = []
      · simp [hm, hc]
      · simp [hm, hc, eq_comm]
    · rw [if_neg hc]
      simp [hc]
  · intro c
    unfold missingFields
    simp only [List.mem_filter, not_contains_snd_iff]
  · intro e he
    unfold runHeatmap
    rw [he]

/-- A later `dict` assignment to a key overrides any earlier value. -/
theorem dictGet_insert_self (d : List (String × String)) (k v : String) :
    dictGet (dictInsert d (k, v)) k = some v := by
  induction d with
  | nil => simp [dictInsert, dictGet]
  | cons p d ih =>
      by_cases hp : p.1 = k
      · simp [dictInsert, hp, dictGet]
      · simp only [dictInsert, if_neg hp]
        simp only [dictGet, List.find?] at ih ⊢
        rw [decide_eq_false hp]
        exact ih

/-- `dict(zip(...))` of one extra mapping row is one `dict` insertion
into the dict of the earlier rows. -/
theorem dictZip_concat (ks vs : List String) (k v : String)
    (h : ks.length = vs.length) :
    dictZip (ks ++ [k]) (vs ++ [v]) = dictInsert (dictZip ks vs) (k, v) := by
  unfold dictZip
  rw [List.zip_append h, List.foldl_append]
  rfl

/-- C7 (amended): in the `column_mapping` dict, the last mapping row for
a given source column wins; but `rename` relabels every source column
independently, so each source column mapped to a canonical name stays in
the header list under that name — duplicate mappings from distinct
source columns to one canonical field retain all those columns rather
than keeping only the last one. -/
theorem duplicate_mapping_resolution (ks vs headers : List String) (k v name : String)
    (h : ks.length = vs.length) :
    dictGet (dictZip (ks ++ [k]) (vs ++ [v])) k = some v ∧
    (renameColumns headers (dictZip (ks ++ [k]) (vs ++ [v]))).countP
        (fun x => x == name)
      = headers.countP
        (fun x => ((dictGet (dictZip (ks ++ [k]) (vs ++ [v])) x).getD x) == name) := by
  constructor
  · rw [dictZip_concat ks vs k v h, dictGet_insert_self]
  · unfold renameColumns
    rw [List.countP_map]
    rfl

/-- Witness for C7's amended statement: mapping rows
`colA → MAP_mbar, colB → MAP_mbar` over headers `[colA, colB]`. -/
theorem duplicate_mapping_resolution_witness :
    ([("colA" : String)]).length = ([("MAP_mbar" : String)]).length ∧
    (dictGet (dictZip ([("colA" : String)] ++ ["colB"]) ([("MAP_mbar" : String)] ++ ["MAP_mbar"]))
        ("colB") = some ("MAP_mbar") ∧
      (renameColumns ["colA", "colB"]
          (dictZip ([("colA" : String)] ++ ["colB"]) ([("MAP_mbar" : String)] ++ ["MAP_mbar"]))).countP
          (fun x => x == ("MAP_mbar"))
        = (["colA", "colB"] : List String).countP
          (fun x =>
            ((dictGet (dictZip ([("colA" : String)] ++ ["colB"])
                ([("MAP_mbar" : String)] ++ ["MAP_mbar"])) x).getD x) == ("MAP_mbar"))) :=
  ⟨rfl, duplicate_mapping_resolution ["colA"] ["MAP_mbar"] ["colA", "colB"]
    ("colB") ("MAP_mbar") ("MAP_mbar") rfl⟩

/-- Counterexample to C7 as stated: with mapping rows
`colA → MAP_mbar, colB → MAP_mbar`, `rename` keeps both source columns
under the canonical name; the header list differs from the one produced
by the last mapping alone (under which `colA` would keep its own name),
so downstream does not proceed as if only the last mapping existed. -/
theorem duplicate_target_not_last_wins :
    renameColumns ["colA", "colB"] (dictZip ["colA", "colB"] ["MAP_mbar", "MAP_mbar"])
      = ["MAP_mbar", "MAP_mbar"] ∧
    renameColumns ["colA", "colB"] (dictZip ["colB"] ["MAP_mbar"])
      = ["colA", "MAP_mbar"] ∧
    renameColumns ["colA", "colB"] (dictZip ["colA", "colB"] ["MAP_mbar", "MAP_mbar"])
      ≠ renameColumns ["colA", "colB"] (dictZip ["colB"] ["MAP_mbar"]) := by
  refine ⟨by decide, by decide, by decide⟩
